import Mathlib

/-!
Verification of `resolve_found_already_linked.py`: a shallow embedding of the
script's pure logic.  Remote HTTP collaborators are modelled as explicit
function parameters (a link-query function, a page server, a per-attempt
status function, a per-link delete outcome), and the script's control flow is
translated function by function from the source.
-/

namespace ResolveFAL

/-- A persisted link record (`/repo/link` result).  `_id` and `_rev` are
accessed with mandatory keys in the source; `linkType` via `.get`, hence
optional. -/
structure LinkRecord where
  id : String
  rev : String
  firstId : String
  secondId : String
  linkType : Option String
deriving DecidableEq, Repr

/-- A FOUND_ALREADY_LINKED recon association entry; the source reads
`sourceObjectId` and `targetObjectId` with `.get`, hence optional. -/
structure ReconEntry where
  sourceObjectId : Option String
  targetObjectId : Option String
deriving DecidableEq, Repr

/-- A reconciliation run as returned by `GET /recon`: the fields the script
reads.  `mapping` and `started` are read via `.get` in filtering/sorting. -/
structure Recon where
  id : String
  mapping : Option String
  started : Option String
deriving DecidableEq, Repr

/-- Python truthiness of an optional string id: `filter(None, ...)` drops
`None` and the empty string. -/
def idTruthy : Option String → Bool
  | none => false
  | some s => !s.isEmpty

/-- First-occurrence deduplication of a string list (the `set(...)` of the
source: membership is what matters; first occurrence fixes an order). -/
def dedupStr : List String → List String
  | [] => []
  | x :: xs => x :: (dedupStr xs).filter (fun y => y ≠ x)

/-- `set(filter(None, [source_id, target_id]))`: the non-falsy ids among the
pair, deduplicated. -/
def search_ids (source_id target_id : Option String) : List String :=
  dedupStr (([source_id, target_id].filter idTruthy).filterMap (fun o => o))

/-- The `(field, id)` query pairs issued by `find_link`: for each search id,
a `firstId` query then a `secondId` query. -/
def link_queries (source_id target_id : Option String) : List (String × String) :=
  (search_ids source_id target_id).flatMap (fun i => [("firstId", i), ("secondId", i)])

/-- The candidate-deduplication pass of `find_link`, carried out with a
`seen` set of `_id`s, keeping the first record for each id. -/
def dedupByIdGo (seen : List String) : List LinkRecord → List LinkRecord
  | [] => []
  | c :: rest =>
    if c.id ∈ seen then dedupByIdGo seen rest
    else c :: dedupByIdGo (c.id :: seen) rest

/-- Deduplicate candidate records by `_id` (the `seen` set / `unique` list
of the source). -/
def dedupById (cs : List LinkRecord) : List LinkRecord :=
  dedupByIdGo [] cs

/-- `find_link(source_id, target_id)`: fan out over both ids and both
endpoint fields via `q` (the `/repo/link` query collaborator), deduplicate by
`_id`, then filter to `linkType == MAPPING_NAME`. -/
def find_link (q : String → String → List LinkRecord) (mappingName : String)
    (source_id target_id : Option String) : List LinkRecord :=
  let candidates := (link_queries source_id target_id).flatMap (fun p => q p.1 p.2)
  let unique := dedupById candidates
  unique.filter (fun c => c.linkType == some mappingName)

/-- Counters and the delete calls issued by the step-4 loop of `main`. -/
structure RunResult where
  deleted : Nat
  failed : Nat
  not_found : Nat
  deleteCalls : List LinkRecord
deriving DecidableEq, Repr

/-- The truncation of the fetched entries performed by `main`:
`entries[:SAMPLE_SIZE]` when `SAMPLE_SIZE > 0`, otherwise all entries
(both the `SAMPLE_SIZE == 0` dry-run branch and the negative branch keep
the whole list). -/
def to_process (sampleSize : Int) (entries : List ReconEntry) : List ReconEntry :=
  if sampleSize > 0 then entries.take sampleSize.toNat
  else entries

/-- The inner per-link loop of `main`: in dry-run only print; otherwise call
`api_delete`, counting a success as deleted and an exception as failed.
`delOk` models whether the remote delete succeeds for a given record. -/
def processLinks (dryRun : Bool) (delOk : LinkRecord → Bool) :
    List LinkRecord → RunResult
  | [] => ⟨0, 0, 0, []⟩
  | l :: rest =>
    let r := processLinks dryRun delOk rest
    if dryRun then r
    else if delOk l then
      { r with deleted := r.deleted + 1, deleteCalls := l :: r.deleteCalls }
    else
      { r with failed := r.failed + 1, deleteCalls := l :: r.deleteCalls }

/-- The per-entry loop of `main`: resolve links for the entry; an empty
result counts as not-found and the loop continues; otherwise process each
resolved link. -/
def processEntries (q : String → String → List LinkRecord) (mappingName : String)
    (dryRun : Bool) (delOk : LinkRecord → Bool) : List ReconEntry → RunResult
  | [] => ⟨0, 0, 0, []⟩
  | e :: rest =>
    let links := find_link q mappingName e.sourceObjectId e.targetObjectId
    let r := processEntries q mappingName dryRun delOk rest
    if links.isEmpty then { r with not_found := r.not_found + 1 }
    else
      let lr := processLinks dryRun delOk links
      { deleted := lr.deleted + r.deleted
        failed := lr.failed + r.failed
        not_found := r.not_found
        deleteCalls := lr.deleteCalls ++ r.deleteCalls }

/-- Step 4 of `main`: truncate the entries per the sample-size mode, set
`dry_run = (SAMPLE_SIZE == 0)`, and run the per-entry loop. -/
def runStep4 (q : String → String → List LinkRecord) (mappingName : String)
    (sampleSize : Int) (delOk : LinkRecord → Bool)
    (entries : List ReconEntry) : RunResult :=
  processEntries q mappingName (sampleSize == 0) delOk (to_process sampleSize entries)

/-- The sort key of `find_latest_recon`: `r.get("started", "")`. -/
def reconKey (r : Recon) : String :=
  r.started.getD ""

/-- `find_latest_recon`: filter the runs to the configured mapping, sort by
start timestamp descending (Python sort is stable; insertion sort with a
"key of left at least key of right" comparator models it; Python compares
strings lexicographically by code point, i.e. by their character lists),
and take the first.  `none` models the `sys.exit(1)` taken when no run
matches. -/
def find_latest_recon (mappingName : String) (runs : List Recon) : Option Recon :=
  let recons := runs.filter (fun r => r.mapping == some mappingName)
  match recons.insertionSort (fun a b => (reconKey b).data ≤ (reconKey a).data) with
  | [] => none
  | r :: _ => some r

/-- The query parameters of one page request of
`get_found_already_linked_entries`: the situation filter and page size are
fixed; the continuation cookie is attached only when truthy. -/
structure PageRequest where
  queryFilter : String
  pageSize : String
  pagedResultsCookie : Option String
deriving DecidableEq, Repr

/-- One page of `GET /recon/assoc/{id}/entry`: a result batch and an
optional continuation cookie. -/
structure Page where
  result : List ReconEntry
  pagedResultsCookie : Option String
deriving DecidableEq, Repr

/-- Python truthiness of the continuation cookie (`if cookie:` /
`if not cookie`): `None` and the empty string are falsy. -/
def cookieTruthy : Option String → Bool
  | none => false
  | some c => !c.isEmpty

/-- The params dict built for one page: situation filter, page size 500, and
the cookie only when truthy. -/
def mkParams (cookie : Option String) : PageRequest :=
  { queryFilter := "situation eq \"FOUND_ALREADY_LINKED\""
    pageSize := "500"
    pagedResultsCookie := if cookieTruthy cookie then cookie else none }

/-- The `while True` pagination loop, with explicit fuel: `none` means the
fuel ran out before the loop broke (the source loop would still be running).
Each iteration requests a page, appends its batch, and breaks when the
returned cookie is falsy or the batch is empty. -/
def get_fal_loop (server : PageRequest → Page) :
    Nat → List ReconEntry → Option String → Option (List ReconEntry)
  | 0, _, _ => none
  | fuel + 1, entries, cookie =>
    let data := server (mkParams cookie)
    let batch := data.result
    let entries := entries ++ batch
    let cookie := data.pagedResultsCookie
    if !cookieTruthy cookie || batch.length = 0 then some entries
    else get_fal_loop server fuel entries cookie

/-- `get_found_already_linked_entries`, starting with no entries and no
cookie. -/
def get_found_already_linked_entries (server : PageRequest → Page) (fuel : Nat) :
    Option (List ReconEntry) :=
  get_fal_loop server fuel [] none

/-- The i-th page of the continuation chain the loop walks: page 0 is
requested with no cookie, page i+1 with the cookie of page i. -/
def pageAt (server : PageRequest → Page) : Nat → Page
  | 0 => server (mkParams none)
  | i + 1 => server (mkParams (pageAt server i).pagedResultsCookie)

/-- A page is terminal when its cookie is falsy or its batch is empty: the
loop breaks right after consuming it. -/
def pageTerminal (p : Page) : Bool :=
  !cookieTruthy p.pagedResultsCookie || p.result.length = 0

/-- Concatenation, in order, of the result batches of pages 0..n. -/
def pagesConcat (server : PageRequest → Page) (n : Nat) : List ReconEntry :=
  (List.range (n + 1)).flatMap (fun i => (pageAt server i).result)

/-- Outcome of `_do_request`: a parsed response or an HTTP error raised by
`raise_for_status` (status at least 400). -/
inductive ReqOutcome where
  | ok
  | httpError (status : Nat)
deriving DecidableEq, Repr

/-- Trace of one `_do_request` call: how many HTTP requests were issued, how
many token refreshes happened, and the outcome. -/
structure ReqTrace where
  requests : Nat
  refreshes : Nat
  outcome : ReqOutcome
deriving DecidableEq, Repr

/-- The `for attempt in range(2)` loop of `_do_request`, over the remaining
attempt indices.  `status` gives the HTTP status of each attempt.  A 401 on
attempt 0 refreshes the token and continues; otherwise `raise_for_status`
raises for any status at least 400, and a lower status returns the body.
`none` models running off the end of the loop (returning Python `None`). -/
def do_request_go (status : Nat → Nat) (refreshes : Nat) :
    List Nat → Option ReqTrace
  | [] => none
  | attempt :: rest =>
    let s := status attempt
    if s = 401 ∧ attempt = 0 then
      do_request_go status (refreshes + 1) rest
    else if s < 400 then
      some ⟨attempt + 1, refreshes, ReqOutcome.ok⟩
    else
      some ⟨attempt + 1, refreshes, ReqOutcome.httpError s⟩

/-- `_do_request`: run the attempt loop over `range(2)`. -/
def do_request (status : Nat → Nat) : Option ReqTrace :=
  do_request_go status 0 [0, 1]

/-- The cookie passed to the i-th page request of the pagination loop:
none for the first request, afterwards the cookie of the previous page. -/
def chainCookie (server : PageRequest → Page) : Nat → Option String
  | 0 => none
  | i + 1 => (pageAt server i).pagedResultsCookie

/-- Concatenation of the result batches of the k+1 pages starting at page i
of the chain. -/
def tailConcat (server : PageRequest → Page) (i : Nat) : Nat → List ReconEntry
  | 0 => (pageAt server i).result
  | k + 1 => (pageAt server i).result ++ tailConcat server (i + 1) k

/-! Concrete sample data used by the witness and counterexample theorems. -/

/-- A sample link record of link type `mapA` between `u1` and `v1`. -/
def lnkA : LinkRecord := ⟨"L1", "r1", "u1", "v1", some "mapA"⟩

/-- A sample link record of a different link type `mapB`, sharing the same
endpoint ids as `lnkA`. -/
def lnkB : LinkRecord := ⟨"L2", "r2", "u1", "v1", some "mapB"⟩

/-- A sample link-query collaborator: every query on id `u1` returns both
sample records, anything else returns nothing. -/
def qAB : String → String → List LinkRecord :=
  fun _ i => if i = "u1" then [lnkA, lnkB] else []

/-- A link-query collaborator that finds nothing. -/
def qNone : String → String → List LinkRecord := fun _ _ => []

/-- A delete collaborator for which every delete succeeds. -/
def dAll : LinkRecord → Bool := fun _ => true

/-- A sample entry with both endpoint ids populated. -/
def entU : ReconEntry := ⟨some "u1", some "v1"⟩

/-- A second sample entry. -/
def entU2 : ReconEntry := ⟨some "u2", some "v2"⟩

/-- A third sample entry, with only a source id. -/
def entU3 : ReconEntry := ⟨some "u3", none⟩

/-- A sample entry with no populated endpoint id (one absent, one empty). -/
def entNone : ReconEntry := ⟨none, some ""⟩

/-- Sample recon runs for the locator. -/
def rec1 : Recon := ⟨"R1", some "mapA", some "2024-01-01T00:00:00"⟩

/-- A later run of the same mapping. -/
def rec2 : Recon := ⟨"R2", some "mapA", some "2024-02-01T00:00:00"⟩

/-- A still later run, but of a different mapping. -/
def rec3 : Recon := ⟨"R3", some "mapB", some "2024-03-01T00:00:00"⟩

/-- A two-page sample server: the first request (no cookie) yields two
entries and a continuation cookie; any request with a cookie yields one
entry and no cookie. -/
def server2 : PageRequest → Page :=
  fun req =>
    match req.pagedResultsCookie with
    | none => ⟨[entU, entU2], some "ck1"⟩
    | some _ => ⟨[entU3], none⟩

/-- A status function answering 401 to every attempt. -/
def dStatus401 : Nat → Nat := fun _ => 401

/-! ## Helper lemmas -/

/-- In dry-run mode the per-link loop neither deletes nor fails nor issues
any delete call. -/
theorem processLinks_true_eq (delOk : LinkRecord → Bool) :
    ∀ ls, processLinks true delOk ls = ⟨0, 0, 0, []⟩
  | [] => rfl
  | l :: rest => by
    simp [processLinks, processLinks_true_eq delOk rest]

/-- Outside dry-run mode the per-link loop issues one delete call per link,
counting successes as deleted and failures as failed. -/
theorem processLinks_false_eq (delOk : LinkRecord → Bool) :
    ∀ ls, processLinks false delOk ls =
      ⟨(ls.filter (fun l => delOk l)).length,
       (ls.filter (fun l => !delOk l)).length, 0, ls⟩
  | [] => rfl
  | l :: rest => by
    by_cases h : delOk l <;>
      simp [processLinks, processLinks_false_eq delOk rest, List.filter_cons, h]

/-- In dry-run mode the per-entry loop only counts not-found entries. -/
theorem processEntries_true_eq (q : String → String → List LinkRecord)
    (m : String) (delOk : LinkRecord → Bool) :
    ∀ es, processEntries q m true delOk es =
      ⟨0, 0, (es.filter (fun e =>
        (find_link q m e.sourceObjectId e.targetObjectId).isEmpty)).length, []⟩
  | [] => rfl
  | e :: rest => by
    by_cases h : (find_link q m e.sourceObjectId e.targetObjectId).isEmpty <;>
      simp [processEntries, processEntries_true_eq q m delOk rest,
        processLinks_true_eq, List.filter_cons, h]

/-- A zero sample size keeps the whole entry list. -/
theorem to_process_zero (entries : List ReconEntry) :
    to_process 0 entries = entries := by
  simp [to_process]

/-! ## Claims -/

/-- C2: in dry-run mode (sample size 0) no delete call is ever issued —
the delete and failure counters stay zero and the set of issued delete
calls is empty — while the not-found counter still counts exactly the
entries whose link resolution came back empty. -/
theorem claim_C2 (q : String → String → List LinkRecord) (m : String)
    (delOk : LinkRecord → Bool) (entries : List ReconEntry) :
    (runStep4 q m 0 delOk entries).deleteCalls = [] ∧
    (runStep4 q m 0 delOk entries).deleted = 0 ∧
    (runStep4 q m 0 delOk entries).failed = 0 ∧
    (runStep4 q m 0 delOk entries).not_found =
      (entries.filter (fun e =>
        (find_link q m e.sourceObjectId e.targetObjectId).isEmpty)).length := by
  simp [runStep4, to_process_zero, processEntries_true_eq]

/-- C3 counterexample: with sample size 0 the per-entry loop does not run
over zero entries — a one-entry fetch is processed in full (its link
resolution runs and it is counted as not found). -/
theorem claim_C3_counterexample :
    to_process 0 [entU] = [entU] ∧ ([entU] : List ReconEntry) ≠ [] ∧
    (runStep4 qNone "mapA" 0 dAll [entU]).not_found = 1 := by
  decide

/-- C3 (amended): in dry-run mode (SAMPLE_SIZE = 0) the orchestrator's
per-entry loop runs over all fetched entries — resolving links for each and
counting the not-found ones — but issues no delete call. -/
theorem claim_C3 (q : String → String → List LinkRecord) (m : String)
    (delOk : LinkRecord → Bool) (entries : List ReconEntry) :
    to_process 0 entries = entries ∧
    (runStep4 q m 0 delOk entries).deleteCalls = [] ∧
    (runStep4 q m 0 delOk entries).not_found =
      (entries.filter (fun e =>
        (find_link q m e.sourceObjectId e.targetObjectId).isEmpty)).length := by
  simp [runStep4, to_process_zero, processEntries_true_eq]

/-- C4: for a positive sample size N the orchestrator processes exactly the
first N (or fewer) fetched entries, i.e. `min N totalFlaggedEntries` of
them, in fetch order. -/
theorem claim_C4 (N : Int) (hN : 0 < N) (entries : List ReconEntry) :
    to_process N entries = entries.take N.toNat ∧
    (to_process N entries).length = min N.toNat entries.length := by
  have h : to_process N entries = entries.take N.toNat := by
    simp [to_process, hN]
  exact ⟨h, by simp [h, List.length_take]⟩

/-- Witness for C4 at N = 2 over three fetched entries. -/
theorem claim_C4_witness :
    to_process 2 [entU, entU2, entU3] = [entU, entU2, entU3].take (Int.toNat 2) ∧
    (to_process 2 [entU, entU2, entU3]).length =
      min (Int.toNat 2) ([entU, entU2, entU3] : List ReconEntry).length :=
  claim_C4 2 (by decide) [entU, entU2, entU3]

/-- The per-link loop's counters agree with its issued delete calls. -/
theorem processLinks_counts (dryRun : Bool) (delOk : LinkRecord → Bool)
    (ls : List LinkRecord) :
    (processLinks dryRun delOk ls).deleted =
      (((processLinks dryRun delOk ls).deleteCalls).filter
        (fun l => delOk l)).length ∧
    (processLinks dryRun delOk ls).failed =
      (((processLinks dryRun delOk ls).deleteCalls).filter
        (fun l => !delOk l)).length ∧
    (processLinks dryRun delOk ls).not_found = 0 := by
  cases dryRun
  · simp [processLinks_false_eq]
  · simp [processLinks_true_eq]

/-- The per-entry loop's counters agree with its delete calls and with the
entries whose resolution came back empty. -/
theorem processEntries_counts (q : String → String → List LinkRecord)
    (m : String) (dryRun : Bool) (delOk : LinkRecord → Bool) :
    ∀ es, (processEntries q m dryRun delOk es).deleted =
        (((processEntries q m dryRun delOk es).deleteCalls).filter
          (fun l => delOk l)).length ∧
      (processEntries q m dryRun delOk es).failed =
        (((processEntries q m dryRun delOk es).deleteCalls).filter
          (fun l => !delOk l)).length ∧
      (processEntries q m dryRun delOk es).not_found =
        (es.filter (fun e =>
          (find_link q m e.sourceObjectId e.targetObjectId).isEmpty)).length
  | [] => by simp [processEntries]
  | e :: rest => by
    obtain ⟨ih1, ih2, ih3⟩ := processEntries_counts q m dryRun delOk rest
    obtain ⟨pl1, pl2, _⟩ := processLinks_counts dryRun delOk
      (find_link q m e.sourceObjectId e.targetObjectId)
    by_cases h : (find_link q m e.sourceObjectId e.targetObjectId).isEmpty <;>
      simp [processEntries, List.filter_cons, List.filter_append, h,
        ih1, ih2, ih3, pl1, pl2]

/-- C9: in every mode, the deleted counter equals the number of issued
delete calls that succeed and the failed counter the number that fail (so
deleted is incremented only for successful deletes and a failed delete is
counted, not fatal); together they account for every issued call, and the
not-found counter still counts every processed entry with an empty
resolution — processing runs through the whole entry list to the summary
regardless of failures. -/
theorem claim_C9 (q : String → String → List LinkRecord) (m : String)
    (N : Int) (delOk : LinkRecord → Bool) (entries : List ReconEntry) :
    (runStep4 q m N delOk entries).deleted =
      (((runStep4 q m N delOk entries).deleteCalls).filter
        (fun l => delOk l)).length ∧
    (runStep4 q m N delOk entries).failed =
      (((runStep4 q m N delOk entries).deleteCalls).filter
        (fun l => !delOk l)).length ∧
    (runStep4 q m N delOk entries).deleted + (runStep4 q m N delOk entries).failed =
      ((runStep4 q m N delOk entries).deleteCalls).length ∧
    (runStep4 q m N delOk entries).not_found =
      ((to_process N entries).filter (fun e =>
        (find_link q m e.sourceObjectId e.targetObjectId).isEmpty)).length := by
  obtain ⟨h1, h2, h3⟩ :=
    processEntries_counts q m (N == 0) delOk (to_process N entries)
  refine ⟨h1, h2, ?_, h3⟩
  simp only [runStep4]
  rw [h1, h2]
  exact (List.length_eq_length_filter_add (fun l => delOk l)).symm

/-- C10: an entry in which neither endpoint id is populated issues no link
queries, resolves to the empty list, and is counted as not-found while the
run continues over the remaining entries unchanged. -/
theorem claim_C10 (e : ReconEntry) (hs : idTruthy e.sourceObjectId = false)
    (ht : idTruthy e.targetObjectId = false)
    (q : String → String → List LinkRecord) (m : String)
    (delOk : LinkRecord → Bool) (rest : List ReconEntry) :
    link_queries e.sourceObjectId e.targetObjectId = [] ∧
    find_link q m e.sourceObjectId e.targetObjectId = [] ∧
    runStep4 q m (-1) delOk (e :: rest) =
      { runStep4 q m (-1) delOk rest with
        not_found := (runStep4 q m (-1) delOk rest).not_found + 1 } := by
  have hq : link_queries e.sourceObjectId e.targetObjectId = [] := by
    simp [link_queries, search_ids, List.filter_cons, hs, ht, dedupStr]
  have hf : find_link q m e.sourceObjectId e.targetObjectId = [] := by
    simp [find_link, hq, dedupById, dedupByIdGo]
  refine ⟨hq, hf, ?_⟩
  have hneg : ¬((-1 : Int) > 0) := by decide
  simp [runStep4, to_process, hneg, processEntries, hf]

/-- Witness for C10: an entry with an absent source id and an empty target
id, processed ahead of a normal entry. -/
theorem claim_C10_witness :
    link_queries entNone.sourceObjectId entNone.targetObjectId = [] ∧
    find_link qAB "mapA" entNone.sourceObjectId entNone.targetObjectId = [] ∧
    runStep4 qAB "mapA" (-1) dAll [entNone, entU] =
      { runStep4 qAB "mapA" (-1) dAll [entU] with
        not_found := (runStep4 qAB "mapA" (-1) dAll [entU]).not_found + 1 } :=
  claim_C10 entNone (by decide) (by decide) qAB "mapA" dAll [entU]

/-- C8: when exactly one endpoint id is populated (the other absent or
empty), `find_link` still issues both endpoint-field queries with that id —
`firstId` and `secondId` — whichever side holds it, and resolves from
exactly those two query results. -/
theorem claim_C8 (s : String) (hs : s.isEmpty = false) (target_id : Option String)
    (ht : idTruthy target_id = false) (q : String → String → List LinkRecord)
    (m : String) :
    link_queries (some s) target_id = [("firstId", s), ("secondId", s)] ∧
    link_queries target_id (some s) = [("firstId", s), ("secondId", s)] ∧
    find_link q m (some s) target_id =
      (dedupById (q "firstId" s ++ q "secondId" s)).filter
        (fun c => c.linkType == some m) ∧
    find_link q m target_id (some s) =
      (dedupById (q "firstId" s ++ q "secondId" s)).filter
        (fun c => c.linkType == some m) := by
  have hstruthy : idTruthy (some s) = true := by
    simp [idTruthy, hs]
  have hids1 : search_ids (some s) target_id = [s] := by
    simp [search_ids, List.filter_cons, hstruthy, ht, dedupStr]
  have hids2 : search_ids target_id (some s) = [s] := by
    simp [search_ids, List.filter_cons, hstruthy, ht, dedupStr]
  have hq1 : link_queries (some s) target_id = [("firstId", s), ("secondId", s)] := by
    simp [link_queries, hids1]
  have hq2 : link_queries target_id (some s) = [("firstId", s), ("secondId", s)] := by
    simp [link_queries, hids2]
  exact ⟨hq1, hq2, by simp [find_link, hq1], by simp [find_link, hq2]⟩

/-- Witness for C8: an entry with only the source id `u1` populated. -/
theorem claim_C8_witness :
    link_queries (some "u1") none = [("firstId", "u1"), ("secondId", "u1")] ∧
    link_queries none (some "u1") = [("firstId", "u1"), ("secondId", "u1")] ∧
    find_link qAB "mapA" (some "u1") none =
      (dedupById (qAB "firstId" "u1" ++ qAB "secondId" "u1")).filter
        (fun c => c.linkType == some "mapA") ∧
    find_link qAB "mapA" none (some "u1") =
      (dedupById (qAB "firstId" "u1" ++ qAB "secondId" "u1")).filter
        (fun c => c.linkType == some "mapA") :=
  claim_C8 "u1" (by decide) none (by decide) qAB "mapA"

/-- Every record surviving the link-type filter of `find_link` carries the
configured mapping name as its link type. -/
theorem mem_find_link_linkType (q : String → String → List LinkRecord)
    (m : String) (s t : Option String) (l : LinkRecord)
    (h : l ∈ find_link q m s t) : l.linkType = some m := by
  simp only [find_link, List.mem_filter] at h
  simpa using h.2

/-- Delete calls of the per-link loop come from its input list. -/
theorem mem_processLinks_deleteCalls (dryRun : Bool) (delOk : LinkRecord → Bool)
    (ls : List LinkRecord) (l : LinkRecord)
    (h : l ∈ (processLinks dryRun delOk ls).deleteCalls) : l ∈ ls := by
  cases dryRun
  · rw [processLinks_false_eq] at h
    exact h
  · rw [processLinks_true_eq] at h
    simp at h

/-- Every delete call of the per-entry loop is a record resolved by
`find_link` for one of the processed entries. -/
theorem mem_processEntries_deleteCalls (q : String → String → List LinkRecord)
    (m : String) (dryRun : Bool) (delOk : LinkRecord → Bool) :
    ∀ es l, l ∈ (processEntries q m dryRun delOk es).deleteCalls →
      ∃ e, e ∈ es ∧ l ∈ find_link q m e.sourceObjectId e.targetObjectId
  | [], l, h => by simp [processEntries] at h
  | e :: rest, l, h => by
    by_cases hemp : (find_link q m e.sourceObjectId e.targetObjectId).isEmpty
    · simp only [processEntries, hemp, if_pos] at h
      obtain ⟨e1, he1, hl1⟩ := mem_processEntries_deleteCalls q m dryRun delOk rest l h
      exact ⟨e1, List.mem_cons_of_mem _ he1, hl1⟩
    · simp [processEntries, hemp, List.mem_append] at h
      rcases h with h | h
      · exact ⟨e, List.mem_cons_self e rest,
          mem_processLinks_deleteCalls dryRun delOk _ l h⟩
      · obtain ⟨e1, he1, hl1⟩ := mem_processEntries_deleteCalls q m dryRun delOk rest l h
        exact ⟨e1, List.mem_cons_of_mem _ he1, hl1⟩

/-- C1: the resolved set of `find_link` only ever contains records whose
link type equals the configured mapping name, and every delete call the
orchestrator issues is for a record of that resolved set of one of the
processed entries — so a record of a different link type, even one sharing
endpoint ids, is never deleted. -/
theorem claim_C1 (q : String → String → List LinkRecord) (m : String)
    (N : Int) (delOk : LinkRecord → Bool) (entries : List ReconEntry)
    (l : LinkRecord)
    (hl : l ∈ (runStep4 q m N delOk entries).deleteCalls) :
    (∀ s t l', l' ∈ find_link q m s t → l'.linkType = some m) ∧
    l.linkType = some m ∧
    ∃ e ∈ to_process N entries,
      l ∈ find_link q m e.sourceObjectId e.targetObjectId := by
  obtain ⟨e, he, hm⟩ :=
    mem_processEntries_deleteCalls q m (N == 0) delOk (to_process N entries) l hl
  exact ⟨fun s t l' h => mem_find_link_linkType q m s t l' h,
    mem_find_link_linkType q m _ _ l hm, e, he, hm⟩

/-- Witness for C1: a run over one entry, against a store holding a
matching-type link and a different-type link on the same endpoints. -/
theorem claim_C1_witness :
    (∀ s t l', l' ∈ find_link qAB "mapA" s t → l'.linkType = some "mapA") ∧
    lnkA.linkType = some "mapA" ∧
    ∃ e ∈ to_process (-1) [entU],
      lnkA ∈ find_link qAB "mapA" e.sourceObjectId e.targetObjectId :=
  claim_C1 qAB "mapA" (-1) dAll [entU] lnkA (by decide)

/-- C5: every API call retries exactly once after an unauthorized first
response, refreshing the credential exactly once; any non-success status on
the deciding attempt — including a second 401 — surfaces as an error with
no further retries, and a non-401 first response is never retried. -/
theorem claim_C5 (status : Nat → Nat) :
    ∃ t, do_request status = some t ∧
      t.refreshes = (if status 0 = 401 then 1 else 0) ∧
      t.requests = (if status 0 = 401 then 2 else 1) ∧
      (t.outcome = ReqOutcome.ok ↔ status (t.requests - 1) < 400) ∧
      ∀ s, t.outcome = ReqOutcome.httpError s →
        s = status (t.requests - 1) ∧ 400 ≤ s := by
  by_cases h0 : status 0 = 401
  · by_cases h1 : status 1 < 400
    · refine ⟨⟨2, 1, ReqOutcome.ok⟩, ?_, by simp [h0], by simp [h0], ?_, ?_⟩
      · simp [do_request, do_request_go, h0, h1]
      · simpa using h1
      · intro s hs
        simp at hs
    · refine ⟨⟨2, 1, ReqOutcome.httpError (status 1)⟩, ?_, by simp [h0],
        by simp [h0], ?_, ?_⟩
      · simp [do_request, do_request_go, h0, h1]
      · simp [h1]
      · intro s hs
        simp only [ReqOutcome.httpError.injEq] at hs
        exact ⟨hs.symm, hs ▸ Nat.le_of_not_lt h1⟩
  · by_cases h1 : status 0 < 400
    · refine ⟨⟨1, 0, ReqOutcome.ok⟩, ?_, by simp [h0], by simp [h0], ?_, ?_⟩
      · simp [do_request, do_request_go, h0, h1]
      · simpa using h1
      · intro s hs
        simp at hs
    · refine ⟨⟨1, 0, ReqOutcome.httpError (status 0)⟩, ?_, by simp [h0],
        by simp [h0], ?_, ?_⟩
      · simp [do_request, do_request_go, h0, h1]
      · simp [h1]
      · intro s hs
        simp only [ReqOutcome.httpError.injEq] at hs
        exact ⟨hs.symm, hs ▸ Nat.le_of_not_lt h1⟩

/-- Witness for C5: both attempts answer 401 — one refresh, one retry, and
the second 401 surfaces as the error of the call. -/
theorem claim_C5_witness :
    (401 : Nat) = dStatus401 (2 - 1) ∧ 400 ≤ 401 := by
  obtain ⟨t, h1, h2, h3, h4, h5⟩ := claim_C5 dStatus401
  have ht : t = ⟨2, 1, ReqOutcome.httpError 401⟩ := by
    have e : do_request dStatus401 = some ⟨2, 1, ReqOutcome.httpError 401⟩ := by
      decide
    rw [e] at h1
    exact (Option.some.injEq _ _ ▸ h1).symm
  subst ht
  exact h5 401 rfl

/-- C6: `find_latest_recon` filters the runs to the configured mapping and,
if any match, returns one of them whose start timestamp is lexicographically
greatest among the matches; with no match it exits instead of returning
(`none` in the embedding). -/
theorem claim_C6 (mappingName : String) (runs : List Recon) :
    (find_latest_recon mappingName runs = none ↔
      runs.filter (fun r => r.mapping == some mappingName) = []) ∧
    ∀ r, find_latest_recon mappingName runs = some r →
      r ∈ runs.filter (fun r' => r'.mapping == some mappingName) ∧
      ∀ r' ∈ runs.filter (fun r'' => r''.mapping == some mappingName),
        (reconKey r').data ≤ (reconKey r).data := by
  haveI htot : IsTotal Recon (fun a b => (reconKey b).data ≤ (reconKey a).data) :=
    ⟨fun a b => le_total (reconKey b).data (reconKey a).data⟩
  haveI htr : IsTrans Recon (fun a b => (reconKey b).data ≤ (reconKey a).data) :=
    ⟨fun _ _ _ hab hbc => le_trans hbc hab⟩
  have hperm := List.perm_insertionSort
    (fun a b : Recon => (reconKey b).data ≤ (reconKey a).data)
    (runs.filter (fun r => r.mapping == some mappingName))
  have hsort := List.sorted_insertionSort
    (fun a b : Recon => (reconKey b).data ≤ (reconKey a).data)
    (runs.filter (fun r => r.mapping == some mappingName))
  constructor
  · cases hs : (runs.filter (fun r => r.mapping == some mappingName)).insertionSort
        (fun a b => (reconKey b).data ≤ (reconKey a).data) with
    | nil =>
      rw [hs] at hperm
      simp only [find_latest_recon, hs]
      simp [hperm.symm.eq_nil]
    | cons a tail =>
      rw [hs] at hperm
      simp only [find_latest_recon, hs]
      constructor
      · intro h
        exact absurd h (by simp)
      · intro h
        rw [h] at hperm
        exact absurd hperm.eq_nil (by simp)
  · intro r hr
    cases hs : (runs.filter (fun r => r.mapping == some mappingName)).insertionSort
        (fun a b => (reconKey b).data ≤ (reconKey a).data) with
    | nil =>
      rw [find_latest_recon, hs] at hr
      exact absurd hr (by simp)
    | cons a tail =>
      rw [find_latest_recon, hs] at hr
      have har : a = r := by
        simpa using hr
      subst har
      rw [hs] at hperm hsort
      constructor
      · exact hperm.mem_iff.mp (List.mem_cons_self a tail)
      · intro r' hr'
        rcases List.mem_cons.mp (hperm.mem_iff.mpr hr') with h | h
        · exact h ▸ le_refl _
        · exact (List.sorted_cons.mp hsort).1 r' h

/-- Witness for C6: three runs, two of the configured mapping; the returned
run has the greatest start timestamp of the two and the off-mapping run is
ignored. -/
theorem claim_C6_witness :
    rec2 ∈ [rec1, rec2, rec3].filter (fun r => r.mapping == some "mapA") ∧
    ∀ r' ∈ [rec1, rec2, rec3].filter (fun r => r.mapping == some "mapA"),
      (reconKey r').data ≤ (reconKey rec2).data :=
  (claim_C6 "mapA" [rec1, rec2, rec3]).2 rec2 (by decide)

/-- The i-th page of the chain is the server's answer to the i-th request
of the loop. -/
theorem pageAt_chain (server : PageRequest → Page) :
    ∀ i, pageAt server i = server (mkParams (chainCookie server i))
  | 0 => rfl
  | _ + 1 => rfl

/-- Running the pagination loop from position i of the chain, with enough
fuel to reach the first terminal page at position n, appends the batches of
pages i..n to the accumulator. -/
theorem get_fal_loop_run (server : PageRequest → Page) (n : Nat)
    (hterm : pageTerminal (pageAt server n) = true)
    (hmin : ∀ m, m < n → pageTerminal (pageAt server m) = false) :
    ∀ k i acc fuel, i + k = n → k < fuel →
      get_fal_loop server fuel acc (chainCookie server i) =
        some (acc ++ tailConcat server i k) := by
  intro k
  induction k with
  | zero =>
    intro i acc fuel hik hfuel
    obtain ⟨f, rfl⟩ : ∃ f, fuel = f + 1 :=
      ⟨fuel - 1, (Nat.succ_pred_eq_of_pos hfuel).symm⟩
    have hi : i = n := by omega
    subst hi
    have hcond := hterm
    rw [pageTerminal] at hcond
    simp only [get_fal_loop, ← pageAt_chain, hcond, if_true, tailConcat]
  | succ k ih =>
    intro i acc fuel hik hfuel
    obtain ⟨f, rfl⟩ : ∃ f, fuel = f + 1 :=
      ⟨fuel - 1, (Nat.succ_pred_eq_of_pos (by omega)).symm⟩
    have hi : i < n := by omega
    have hcond := hmin i hi
    rw [pageTerminal] at hcond
    simp only [get_fal_loop, ← pageAt_chain, hcond, if_false, Bool.false_eq_true]
    have hnext : (pageAt server i).pagedResultsCookie = chainCookie server (i + 1) :=
      rfl
    rw [hnext, ih (i + 1) (acc ++ (pageAt server i).result) f (by omega) (by omega)]
    simp [tailConcat, List.append_assoc]

/-- The segment concatenation written with `List.range`. -/
theorem tailConcat_range (server : PageRequest → Page) :
    ∀ k i, tailConcat server i k =
      (List.range (k + 1)).flatMap (fun j => (pageAt server (i + j)).result) := by
  intro k
  induction k with
  | zero =>
    intro i
    simp [tailConcat, List.range_succ]
  | succ k ih =>
    intro i
    have hshift : ∀ j, i + 1 + j = i + (j + 1) := by omega
    rw [tailConcat, ih (i + 1)]
    conv_rhs => rw [List.range_succ_eq_map]
    simp [List.flatMap_cons, List.flatMap_map, Function.comp, hshift]

/-- C7: every page is requested with page size 500 and the
FOUND_ALREADY_LINKED situation filter, and — provided some page of the
continuation chain is terminal (no truthy continuation cookie, or an empty
batch) — the loop stops at the first such page and returns the
concatenation, in server order, of the batches of all pages up to and
including it; nothing about the run's reported situation count enters the
conditions. -/
theorem claim_C7 (server : PageRequest → Page) (n : Nat)
    (hterm : pageTerminal (pageAt server n) = true)
    (hmin : ∀ m, m < n → pageTerminal (pageAt server m) = false) :
    (∀ c, (mkParams c).pageSize = "500" ∧
      (mkParams c).queryFilter = "situation eq \"FOUND_ALREADY_LINKED\"") ∧
    ∀ fuel, n < fuel →
      get_found_already_linked_entries server fuel = some (pagesConcat server n) := by
  refine ⟨fun c => ⟨rfl, rfl⟩, fun fuel hfuel => ?_⟩
  have h := get_fal_loop_run server n hterm hmin n 0 [] fuel (by omega) hfuel
  have hc : chainCookie server 0 = none := rfl
  rw [hc] at h
  rw [get_found_already_linked_entries, h, tailConcat_range]
  simp [pagesConcat]

/-- Witness for C7: a two-page chain (a full first page with a cookie, a
terminal second page without one) is concatenated in order with fuel 2. -/
theorem claim_C7_witness :
    get_found_already_linked_entries server2 2 = some (pagesConcat server2 1) :=
  (claim_C7 server2 1 (by decide)
    (by
      intro m hm
      have h0 : m = 0 := by omega
      subst h0
      decide)).2 2 (by omega)

end ResolveFAL
